import Mathlib

/-!
# pyfasthash: the `Hash.h` binding layer

A shallow embedding of `src/Hash.h`: the 128-bit limb macros, the value codec
(`internal::convert`, `internal::extract_hash_value`) and the variadic entry point
`Hasher<T>::CallWithArgs`.

Build configuration embedded here (the preprocessor branches that are taken):
* `PY_MAJOR_VERSION >= 3` (so the `PyString_*`, `PyInt_*` and `PyBuffer_Check` branches are
  compiled out),
* `SUPPORT_INT128` defined and not `_MSC_VER`: `unsigned __int128` only exists on 64-bit
  GCC/Clang targets, where `unsigned long` and `unsigned long long` are both 64 bits wide,
* `Py_UNICODE_WIDE` defined (4-byte `wchar_t`, as on those targets),
* a little-endian host, so that the object representation of a `uint128_t` is its sixteen
  bytes, least significant first, and the native byte order of UTF-16 is little-endian.

Machine integers are natural numbers reduced modulo `2 ^ width` wherever the C++ code stores
them into a fixed-width variable.  CPython API functions are modelled after their documented
behaviour; the Python error indicator is an explicit `Option PyErr`.
-/

namespace PyFastHash

/-! ## 128-bit limb macros (`Hash.h`, lines 18-27) -/

/-- The macro `U128_LO(v)`, that is `(v >> 64)` on a `uint128_t`. -/
def U128_LO (v : Nat) : Nat := (v % 2 ^ 128) >>> 64

/-- The macro `U128_HI(v)`, that is `(v & 0xFFFFFFFFFFFFFFFF)`. -/
def U128_HI (v : Nat) : Nat := v &&& 0xFFFFFFFFFFFFFFFF

/-- The macro `U128_NEW(LO, HI)`, that is `((((uint128_t)HI) << 64) + LO)`, computed in
128-bit unsigned arithmetic. -/
def U128_NEW (LO HI : Nat) : Nat := (((HI % 2 ^ 128) <<< 64) % 2 ^ 128 + LO) % 2 ^ 128

/-! ## Host objects and the error indicator -/

/-- The Python objects that can reach the binding layer.  Byte strings carry their bytes
(each below 256), text strings their code points (each below `0x110000`). -/
inductive PyObj where
  | long (n : Int)
  | bytes (data : List Nat)
  | unicode (cps : List Nat)
  | bytearray (data : List Nat)
  | float_
  | none_
  | hasher
  deriving DecidableEq, Repr

/-- Python exception types set by the code or by the CPython conversions it uses. -/
inductive PyExc where
  | TypeError
  | OverflowError
  deriving DecidableEq, Repr

/-- The Python error indicator contents: exception type and message. -/
structure PyErr where
  type : PyExc
  msg : String
  deriving DecidableEq, Repr

/-- Ways in which `CallWithArgs` leaves without returning an object: a C++ exception, or
the undefined behaviour of handing a null object to `PyBytes_AsStringAndSize`. -/
inductive Abort where
  | invalid_argument (what : String)
  | cast_error
  | null_object
  deriving DecidableEq, Repr

/-- The three instantiations of `T::hash_value_t`. -/
inductive hash_value_t where
  | uint32_t
  | uint64_t
  | uint128_t
  deriving DecidableEq, Repr

/-- Bit width of a hash value type. -/
def hash_value_t.bits : hash_value_t → Nat
  | .uint32_t => 32
  | .uint64_t => 64
  | .uint128_t => 128

/-! ## CPython API used by the codec -/

/-- Macro `PyBytes_CheckExact`. -/
def PyBytes_CheckExact : PyObj → Bool
  | .bytes _ => true
  | _ => false

/-- Macro `PyUnicode_CheckExact`. -/
def PyUnicode_CheckExact : PyObj → Bool
  | .unicode _ => true
  | _ => false

/-- CPython `PyLong_FromSize_t`: the integer object with the value of a `size_t`. -/
def PyLong_FromSize_t (v : Nat) : PyObj := .long (Int.ofNat v)

/-- CPython `PyLong_FromUnsignedLong`. -/
def PyLong_FromUnsignedLong (v : Nat) : PyObj := .long (Int.ofNat v)

/-- CPython `PyLong_AsUnsignedLong` on an integer `n`, with a 64-bit `unsigned long`:
the value when it is in range; otherwise `OverflowError` is set and `(unsigned long)-1`
is returned. -/
def PyLong_AsUnsignedLong (n : Int) : Nat × Option PyErr :=
  if n < 0 then
    (2 ^ 64 - 1, some ⟨.OverflowError, "can't convert negative value to unsigned int"⟩)
  else if n.toNat < 2 ^ 64 then
    (n.toNat, none)
  else
    (2 ^ 64 - 1, some ⟨.OverflowError, "Python int too large to convert to C unsigned long"⟩)

/-- CPython `PyLong_AsUnsignedLongLong` on an integer `n`: as `PyLong_AsUnsignedLong`, for
the 64-bit `unsigned long long`. -/
def PyLong_AsUnsignedLongLong (n : Int) : Nat × Option PyErr :=
  if n < 0 then
    (2 ^ 64 - 1, some ⟨.OverflowError, "can't convert negative int to unsigned"⟩)
  else if n.toNat < 2 ^ 64 then
    (n.toNat, none)
  else
    (2 ^ 64 - 1, some ⟨.OverflowError, "int too big to convert"⟩)

/-- The first `k` bytes of `v`, least significant first. -/
def bytesLE : Nat → Nat → List Nat
  | 0, _ => []
  | k + 1, v => v % 256 :: bytesLE k (v / 256)

/-- The number whose bytes, least significant first, are the given list. -/
def ofBytesLE : List Nat → Nat
  | [] => 0
  | b :: bs => b + 256 * ofBytesLE bs

/-- CPython `_PyLong_FromByteArray(bytes, n, little_endian = 1, is_signed = 0)`: the
non-negative integer whose little-endian base-256 digits are the first `n` bytes. -/
def _PyLong_FromByteArray (bytes : List Nat) (n : Nat) : PyObj :=
  .long (Int.ofNat (ofBytesLE (bytes.take n)))

/-- CPython `_PyLong_AsByteArray(v, buf, n, little_endian = 1, is_signed = 0)`: the
contents of the `n`-byte buffer afterwards and the error it sets.  A negative `v` is
rejected before the buffer is touched; a `v` needing more than `n` bytes leaves its low
`n` bytes in the buffer and sets `OverflowError`. -/
def _PyLong_AsByteArray (v : Int) (buf : List Nat) (n : Nat) : List Nat × Option PyErr :=
  if v < 0 then
    (buf, some ⟨.OverflowError, "can't convert negative int to unsigned"⟩)
  else if v.toNat < 256 ^ n then
    (bytesLE n v.toNat, none)
  else
    (bytesLE n v.toNat, some ⟨.OverflowError, "int too big to convert"⟩)

/-- CPython `PyBytes_AsStringAndSize(obj, &buf, &len)` with a non-null `len`: on a bytes
object it yields return code 0 and the `len` bytes at `buf`; on any other object it
returns -1. -/
def PyBytes_AsStringAndSize : PyObj → Int × List Nat
  | .bytes data => (0, data)
  | _ => (-1, [])

/-- UTF-16 code units of one code point, as produced by the strict CPython encoder: one
unit for a scalar value of the basic plane, a surrogate pair above it, and no encoding
for a lone surrogate. -/
def utf16_units (cp : Nat) : Option (List Nat) :=
  if cp < 0xD800 ∨ (0xE000 ≤ cp ∧ cp < 0x10000) then
    some [cp]
  else if 0x10000 ≤ cp ∧ cp < 0x110000 then
    some [0xD800 + (cp - 0x10000) / 0x400, 0xDC00 + (cp - 0x10000) % 0x400]
  else
    none

/-- The bytes of a list of 16-bit code units, each unit low byte first. -/
def unitsLE : List Nat → List Nat
  | [] => []
  | u :: us => u % 256 :: u / 256 :: unitsLE us

/-- UTF-16 code units of a text, when every code point can be encoded. -/
def utf16_encode : List Nat → Option (List Nat)
  | [] => some []
  | cp :: cps =>
    match utf16_units cp, utf16_encode cps with
    | some us, some rest => some (us ++ rest)
    | _, _ => none

/-- CPython `PyUnicode_AsUTF16String`: a bytes object holding the byte-order mark followed
by the UTF-16 encoding in native (little-endian) byte order, or null on an encoding
error. -/
def PyUnicode_AsUTF16String : PyObj → Option PyObj
  | .unicode cps =>
    match utf16_encode cps with
    | some us => some (.bytes (0xFF :: 0xFE :: unitsLE us))
    | none => none
  | _ => none

/-! ## `namespace internal` (`Hash.h`, lines 31-145) -/

/-- The overloads of `internal::convert` selected for the three hash value types:
`unsigned int`, `unsigned long` and `uint128_t`.  The last one passes the sixteen bytes of
the object representation of `value`. -/
def convert : hash_value_t → Nat → PyObj
  | .uint32_t, value => PyLong_FromSize_t value
  | .uint64_t, value => PyLong_FromUnsignedLong value
  | .uint128_t, value => _PyLong_FromByteArray (bytesLE 16 value) 16

/-- The error set by the `else` branch of `extract_hash_value`. -/
def seedTypeError : hash_value_t → PyErr
  | .uint128_t => ⟨.TypeError, "unknown `seed` type, expected `long`"⟩
  | _ => ⟨.TypeError, "unknown `seed` type, expected `int` or `long`"⟩

/-- The template `internal::extract_hash_value<T>` and its two specialisations: the value
returned and the Python error set on the way, if any.  The test `PyLong_Check(obj)` is the
match on an integer object; the result of the conversion is stored into a variable of the
hash value type. -/
def extract_hash_value : hash_value_t → PyObj → Nat × Option PyErr
  | .uint32_t, obj =>
    match obj with
    | .long n =>
      let r := PyLong_AsUnsignedLong n
      (r.1 % 2 ^ 32, r.2)
    | _ => (0, some (seedTypeError .uint32_t))
  | .uint64_t, obj =>
    match obj with
    | .long n =>
      let r := PyLong_AsUnsignedLongLong n
      (r.1 % 2 ^ 64, r.2)
    | _ => (0, some (seedTypeError .uint64_t))
  | .uint128_t, obj =>
    match obj with
    | .long n =>
      let r := _PyLong_AsByteArray n (bytesLE 16 0) 16
      (ofBytesLE r.1, r.2)
    | _ => (0, some (seedTypeError .uint128_t))

/-! ## `Hasher<T>::CallWithArgs` (`Hash.h`, lines 169-261) -/

/-- The hasher type parameter `T`: its `hash_value_t` and its call operator
`operator()(buf, len, seed)`, an external hash algorithm. -/
structure HasherT where
  value_t : hash_value_t
  hash : List Nat → Nat → Nat

/-- One call `hasher(buf, len, value)`; the result is a `hash_value_t`. -/
def HasherT.call (T : HasherT) (buf : List Nat) (value : Nat) : Nat :=
  T.hash buf value % 2 ^ T.value_t.bits

/-- The body of the lambda passed to `std::for_each`: the new `value` after one positional
argument, or the way the call is left. -/
def argStep (T : HasherT) (value : Nat) (arg : PyObj) : Except Abort Nat :=
  if PyBytes_CheckExact arg then
    let r := PyBytes_AsStringAndSize arg
    if r.1 = 0 then .ok (T.call r.2 value) else .ok value
  else if PyUnicode_CheckExact arg then
    match PyUnicode_AsUTF16String arg with
    | none => .error .null_object
    | some utf16 =>
      let r := PyBytes_AsStringAndSize utf16
      let buf := if r.1 = 0 then r.2.drop 2 else r.2
      .ok (T.call buf value)
  else
    .error (.invalid_argument "wrong type of argument")

/-- The loop `std::for_each(std::next(args.begin()), args.end(), ...)`. -/
def for_each (T : HasherT) : List PyObj → Nat → Except Abort Nat
  | [], value => .ok value
  | arg :: rest, value =>
    match argStep T value arg with
    | .ok value1 => for_each T rest value1
    | .error e => .error e

/-- The cast `self.cast<T>()`: it succeeds on an instance of the hasher class. -/
def castSelf : PyObj → Bool
  | .hasher => true
  | _ => false

/-- The function `Hasher<T>::CallWithArgs(args, kwargs)`: the returned object together with
the Python error indicator at return, or the way the call is left.  The test `!self` is on
a handle taken out of the argument tuple, which is never null.  `kwargs.contains("seed")`
and `kwargs["seed"]` are the lookup of the key in the keyword dictionary. -/
def CallWithArgs (T : HasherT) (args : List PyObj) (kwargs : List (String × PyObj)) :
    Except Abort (PyObj × Option PyErr) :=
  match args with
  | [] => .error (.invalid_argument "missed self argument")
  | self :: rest =>
    if castSelf self then
      let seed : Nat × Option PyErr :=
        match kwargs.lookup "seed" with
        | some obj => extract_hash_value T.value_t obj
        | none => (0, none)
      match for_each T rest seed.1 with
      | .ok value => .ok (convert T.value_t value, seed.2)
      | .error e => .error e
    else
      .error .cast_error

/-! ## Specification-level notions -/

namespace Spec

/-- Spec 4.2, text row: the UTF-16 little-endian encoding, without byte-order mark, of a
text whose code points need no surrogate pair: two bytes per code point, low byte first. -/
def utf16le : List Nat → List Nat
  | [] => []
  | c :: cs => [c % 256, c / 256] ++ utf16le cs

/-- Spec 4.2, `normalize`: a byte string or binary buffer is viewed unchanged, a text
through its UTF-16 little-endian encoding with the byte-order mark removed; anything else
is rejected. -/
def normalize : PyObj → Option (List Nat)
  | .bytes data => some data
  | .bytearray data => some data
  | .unicode cps => (utf16_encode cps).map unitsLE
  | _ => none

/-- Spec 4.4, step 3: the accumulator after folding the hash step over the byte views in
call order. -/
def fold (T : HasherT) (acc : Nat) (views : List (List Nat)) : Nat :=
  views.foldl (fun acc view => T.call view acc) acc

end Spec

/-- A code point of the basic multilingual plane that is a Unicode scalar value: it is
encoded by one UTF-16 code unit. -/
def singleUnit (c : Nat) : Prop := c < 0xD800 ∨ (0xE000 ≤ c ∧ c < 0x10000)

/-- An argument that is a byte string or a text string. -/
def isBytesOrText (a : PyObj) : Prop := PyBytes_CheckExact a = true ∨ PyUnicode_CheckExact a = true

/-- A sample 32-bit hasher used to evaluate the code on concrete calls. -/
def sampleHasher : HasherT := ⟨.uint32_t, fun buf seed => 31 * seed + ofBytesLE buf + 1⟩

/-! ## Codec lemmas -/

theorem bytesLE_length (k v : Nat) : (bytesLE k v).length = k := by
  induction k generalizing v with
  | zero => rfl
  | succ k ih => simp [bytesLE, ih]

theorem ofBytesLE_bytesLE (k v : Nat) : ofBytesLE (bytesLE k v) = v % 256 ^ k := by
  induction k generalizing v with
  | zero => simp [bytesLE, ofBytesLE, Nat.mod_one]
  | succ k ih =>
    simp only [bytesLE, ofBytesLE, ih]
    rw [pow_succ', Nat.mod_mul]

theorem ofBytesLE_bytesLE_lt (k v : Nat) : ofBytesLE (bytesLE k v) < 256 ^ k := by
  rw [ofBytesLE_bytesLE]
  exact Nat.mod_lt _ (by positivity)

theorem convert_eq (w : hash_value_t) (v : Nat) (hv : v < 2 ^ w.bits) :
    convert w v = .long (Int.ofNat v) := by
  cases w with
  | uint32_t => rfl
  | uint64_t => rfl
  | uint128_t =>
    have h16 : (bytesLE 16 v).take 16 = bytesLE 16 v :=
      List.take_of_length_le (by rw [bytesLE_length])
    have hlt : v < 256 ^ 16 := by
      simpa [hash_value_t.bits] using hv
    simp only [convert, _PyLong_FromByteArray, h16, ofBytesLE_bytesLE, Nat.mod_eq_of_lt hlt]

theorem extract_long (w : hash_value_t) (v : Nat) (hv : v < 2 ^ w.bits) :
    extract_hash_value w (.long (Int.ofNat v)) = (v, none) := by
  have hnn : ¬ ((v : Int) < 0) := by omega
  show extract_hash_value w (.long (v : Int)) = (v, none)
  cases w with
  | uint32_t =>
    have h32 : v < 4294967296 := by simpa [hash_value_t.bits] using hv
    have h64 : v < 18446744073709551616 := by omega
    simp [extract_hash_value, PyLong_AsUnsignedLong, hnn, h64, Nat.mod_eq_of_lt h32]
  | uint64_t =>
    have h64 : v < 18446744073709551616 := by simpa [hash_value_t.bits] using hv
    simp [extract_hash_value, PyLong_AsUnsignedLongLong, hnn, h64, Nat.mod_eq_of_lt h64]
  | uint128_t =>
    have hlt : v < 340282366920938463463374607431768211456 := by
      simpa [hash_value_t.bits] using hv
    have hmod : v % 256 ^ 16 = v := Nat.mod_eq_of_lt (by simpa using hlt)
    simp [extract_hash_value, _PyLong_AsByteArray, hnn, hlt, ofBytesLE_bytesLE, hmod]

theorem extract_lt (w : hash_value_t) (obj : PyObj) :
    (extract_hash_value w obj).1 < 2 ^ w.bits := by
  cases w with
  | uint32_t =>
    cases obj <;> simp [extract_hash_value, hash_value_t.bits, Nat.mod_lt]
  | uint64_t =>
    cases obj <;> simp [extract_hash_value, hash_value_t.bits, Nat.mod_lt]
  | uint128_t =>
    have h256 : (2 : Nat) ^ 128 = 256 ^ 16 := by norm_num
    cases obj with
    | long n =>
      simp only [extract_hash_value, _PyLong_AsByteArray, hash_value_t.bits]
      rw [h256]
      split_ifs <;> exact ofBytesLE_bytesLE_lt _ _
    | _ => simp [extract_hash_value, hash_value_t.bits]

/-! ## Lemmas about the argument loop -/

theorem call_lt (T : HasherT) (buf : List Nat) (value : Nat) :
    T.call buf value < 2 ^ T.value_t.bits :=
  Nat.mod_lt _ (by positivity)

theorem argStep_bytes (T : HasherT) (value : Nat) (data : List Nat) :
    argStep T value (.bytes data) = .ok (T.call data value) := by
  simp [argStep, PyBytes_CheckExact, PyBytes_AsStringAndSize]

theorem argStep_unicode (T : HasherT) (value : Nat) (cps us : List Nat)
    (h : utf16_encode cps = some us) :
    argStep T value (.unicode cps) = .ok (T.call (unitsLE us) value) := by
  simp [argStep, PyBytes_CheckExact, PyUnicode_CheckExact, PyUnicode_AsUTF16String, h,
    PyBytes_AsStringAndSize]

theorem argStep_normalize (T : HasherT) (value : Nat) (arg : PyObj) (view : List Nat)
    (ht : isBytesOrText arg) (hn : Spec.normalize arg = some view) :
    argStep T value arg = .ok (T.call view value) := by
  cases arg with
  | bytes data =>
    simp only [Spec.normalize, Option.some.injEq] at hn
    rw [argStep_bytes, hn]
  | unicode cps =>
    simp only [Spec.normalize, Option.map_eq_some'] at hn
    obtain ⟨us, hus, hview⟩ := hn
    rw [argStep_unicode T value cps us hus, hview]
  | _ => simp [isBytesOrText, PyBytes_CheckExact, PyUnicode_CheckExact] at ht

theorem argStep_unicode_none (T : HasherT) (value : Nat) (cps : List Nat)
    (h : utf16_encode cps = none) :
    argStep T value (.unicode cps) = .error .null_object := by
  simp [argStep, PyBytes_CheckExact, PyUnicode_CheckExact, PyUnicode_AsUTF16String, h]

theorem argStep_lt (T : HasherT) (value value1 : Nat) (arg : PyObj)
    (h : argStep T value arg = .ok value1) :
    value1 < 2 ^ T.value_t.bits := by
  cases arg with
  | bytes data =>
    rw [argStep_bytes] at h
    cases h; exact call_lt T _ _
  | unicode cps =>
    cases hu : utf16_encode cps with
    | none => rw [argStep_unicode_none T value cps hu] at h; cases h
    | some us =>
      rw [argStep_unicode T value cps us hu] at h
      cases h; exact call_lt T _ _
  | _ => simp [argStep, PyBytes_CheckExact, PyUnicode_CheckExact] at h

theorem for_each_lt (T : HasherT) (args : List PyObj) (value value1 : Nat)
    (hv : value < 2 ^ T.value_t.bits) (h : for_each T args value = .ok value1) :
    value1 < 2 ^ T.value_t.bits := by
  induction args generalizing value with
  | nil =>
    simp only [for_each, Except.ok.injEq] at h
    exact h ▸ hv
  | cons arg rest ih =>
    simp only [for_each] at h
    split at h
    · next v1 hstep => exact ih v1 (argStep_lt T value v1 arg hstep) h
    · cases h

theorem for_each_fold (T : HasherT) (args : List PyObj) (views : List (List Nat))
    (h : List.Forall₂ (fun a v => isBytesOrText a ∧ Spec.normalize a = some v) args views)
    (value : Nat) :
    for_each T args value = .ok (Spec.fold T value views) := by
  induction h generalizing value with
  | nil => rfl
  | cons hav _ ih =>
    simp only [for_each, argStep_normalize T value _ _ hav.1 hav.2, ih]
    rfl

theorem seed_lookup (T : HasherT) (rest : List PyObj) (kwargs : List (String × PyObj))
    (obj : PyObj) (h : kwargs.lookup "seed" = some obj) :
    CallWithArgs T (.hasher :: rest) kwargs =
      match for_each T rest (extract_hash_value T.value_t obj).1 with
      | .ok value => .ok (convert T.value_t value, (extract_hash_value T.value_t obj).2)
      | .error e => .error e := by
  simp [CallWithArgs, castSelf, h]

theorem seed_only (T : HasherT) (rest : List PyObj) (obj : PyObj) :
    CallWithArgs T (.hasher :: rest) [("seed", obj)] =
      match for_each T rest (extract_hash_value T.value_t obj).1 with
      | .ok value => .ok (convert T.value_t value, (extract_hash_value T.value_t obj).2)
      | .error e => .error e :=
  seed_lookup T rest [("seed", obj)] obj rfl

theorem seed_absent (T : HasherT) (rest : List PyObj) (kwargs : List (String × PyObj))
    (h : kwargs.lookup "seed" = none) :
    CallWithArgs T (.hasher :: rest) kwargs =
      match for_each T rest 0 with
      | .ok value => .ok (convert T.value_t value, none)
      | .error e => .error e := by
  simp [CallWithArgs, castSelf, h]

theorem utf16_encode_singleUnit (t : List Nat) (ht : ∀ c ∈ t, singleUnit c) :
    utf16_encode t = some t := by
  induction t with
  | nil => rfl
  | cons c cs ih =>
    have hc : c < 0xD800 ∨ (0xE000 ≤ c ∧ c < 0x10000) := ht c (List.mem_cons_self c cs)
    have hcs : utf16_encode cs = some cs := ih (fun d hd => ht d (List.mem_cons_of_mem c hd))
    simp [utf16_encode, utf16_units, hc, hcs]

theorem unitsLE_eq_utf16le (t : List Nat) : unitsLE t = Spec.utf16le t := by
  induction t with
  | nil => rfl
  | cons c cs ih => simp [unitsLE, Spec.utf16le, ih]

theorem utf16le_length (t : List Nat) : (Spec.utf16le t).length = 2 * t.length := by
  induction t with
  | nil => rfl
  | cons c cs ih => simp [Spec.utf16le, ih]; omega

theorem call_error (T : HasherT) (rest : List PyObj) (kwargs : List (String × PyObj))
    (e : Abort) (h : ∀ value, for_each T rest value = .error e) :
    CallWithArgs T (.hasher :: rest) kwargs = .error e := by
  simp [CallWithArgs, castSelf, h]

theorem call_ok_value (T : HasherT) (args : List PyObj) (kwargs : List (String × PyObj))
    (obj : PyObj) (err : Option PyErr) (h : CallWithArgs T args kwargs = .ok (obj, err)) :
    ∃ value, value < 2 ^ T.value_t.bits ∧ obj = convert T.value_t value := by
  cases args with
  | nil => simp [CallWithArgs] at h
  | cons self rest =>
    cases self with
    | hasher =>
      simp only [CallWithArgs, castSelf, if_true] at h
      have hseed : ∀ (seed : Nat × Option PyErr), seed.1 < 2 ^ T.value_t.bits →
          (match for_each T rest seed.1 with
            | .ok value => (Except.ok (convert T.value_t value, seed.2) : Except Abort _)
            | .error e => .error e) = .ok (obj, err) →
          ∃ value, value < 2 ^ T.value_t.bits ∧ obj = convert T.value_t value := by
        intro seed hlt hm
        cases hfe : for_each T rest seed.1 with
        | error e => rw [hfe] at hm; cases hm
        | ok value =>
          rw [hfe] at hm
          cases hm
          exact ⟨value, for_each_lt T rest seed.1 value hlt hfe, rfl⟩
      cases hk : kwargs.lookup "seed" with
      | none =>
        rw [hk] at h
        exact hseed (0, none) (by positivity) h
      | some o =>
        rw [hk] at h
        exact hseed (extract_hash_value T.value_t o) (extract_lt T.value_t o) h
    | _ => simp [CallWithArgs, castSelf] at h

theorem extract_convert_roundtrip_aux (w : hash_value_t) (v : Nat) (hv : v < 2 ^ w.bits) :
    extract_hash_value w (convert w v) = (v, none) := by
  rw [convert_eq w v hv]
  exact extract_long w v hv

/-! ## Claims about the codec and the macros -/

/-- C1: for every width and every value `v` below `2 ^ N`, decoding the host integer that
encodes `v` gives back `v`, and no Python error is set. -/
theorem extract_convert_roundtrip (w : hash_value_t) (v : Nat) (hv : v < 2 ^ w.bits) :
    extract_hash_value w (convert w v) = (v, none) :=
  extract_convert_roundtrip_aux w v hv

/-- C1 at the 128-bit values the spec names: the maximum `2 ^ 128 - 1` (and the value 1)
survive the round trip. -/
theorem extract_convert_roundtrip_witness :
    extract_hash_value .uint128_t (convert .uint128_t (2 ^ 128 - 1)) = (2 ^ 128 - 1, none) ∧
    extract_hash_value .uint128_t (convert .uint128_t 1) = (1, none) :=
  ⟨extract_convert_roundtrip .uint128_t (2 ^ 128 - 1) (by decide),
   extract_convert_roundtrip .uint128_t 1 (by decide)⟩

/-- C3, as stated, fails: decoding `2 ^ 64` does not mask.  For width 32 and for width 64
the conversion sets `OverflowError` and the value is all ones, not `2 ^ 64 mod 2 ^ N = 0`. -/
theorem extract_hash_value_not_masked :
    (2 ^ 64 % 2 ^ 32 = 0 ∧ 2 ^ 64 % 2 ^ 64 = 0) ∧
    extract_hash_value .uint32_t (.long (2 ^ 64)) =
      (2 ^ 32 - 1,
        some ⟨.OverflowError, "Python int too large to convert to C unsigned long"⟩) ∧
    extract_hash_value .uint64_t (.long (2 ^ 64)) =
      (2 ^ 64 - 1, some ⟨.OverflowError, "int too big to convert"⟩) := by
  decide

/-- C3, amended: for every `n` below `2 ^ 64`, the range of the conversions used, decoding
the host integer `n` gives `n mod 2 ^ 32` for width 32 and `n mod 2 ^ 64` for width 64, and
no Python error is set. -/
theorem extract_hash_value_mod (n : Nat) (hn : n < 2 ^ 64) :
    extract_hash_value .uint32_t (.long (Int.ofNat n)) = (n % 2 ^ 32, none) ∧
    extract_hash_value .uint64_t (.long (Int.ofNat n)) = (n % 2 ^ 64, none) := by
  have hnn : ¬ ((n : Int) < 0) := by omega
  have h64 : n < 18446744073709551616 := by simpa using hn
  show extract_hash_value .uint32_t (.long (n : Int)) = (n % 2 ^ 32, none) ∧
    extract_hash_value .uint64_t (.long (n : Int)) = (n % 2 ^ 64, none)
  constructor
  · simp [extract_hash_value, PyLong_AsUnsignedLong, hnn, h64]
  · simp [extract_hash_value, PyLong_AsUnsignedLongLong, hnn, h64]

/-- C3, amended, at `n = 2 ^ 32 + 7`: width 32 wraps to 7, width 64 keeps the value. -/
theorem extract_hash_value_mod_witness :
    extract_hash_value .uint32_t (.long (Int.ofNat (2 ^ 32 + 7))) = (7, none) ∧
    extract_hash_value .uint64_t (.long (Int.ofNat (2 ^ 32 + 7))) = (2 ^ 32 + 7, none) :=
  extract_hash_value_mod (2 ^ 32 + 7) (by decide)

/-- C10: the code at `lo = 1`, `hi = 2`.  `U128_NEW` puts its first argument in the low
half, but `U128_LO` returns the high half and `U128_HI` the low half, so
`U128_LO(U128_NEW(1, 2))` is 2 rather than 1, `U128_HI(U128_NEW(1, 2))` is 1 rather than 2,
and rebuilding from the two limbs swaps the halves. -/
theorem U128_limbs_swapped :
    U128_NEW 1 2 = 2 * 2 ^ 64 + 1 ∧
    U128_LO (U128_NEW 1 2) = 2 ∧
    U128_HI (U128_NEW 1 2) = 1 ∧
    U128_NEW (U128_LO (U128_NEW 1 2)) (U128_HI (U128_NEW 1 2)) = 1 * 2 ^ 64 + 2 := by
  decide

/-! ## Claims about `CallWithArgs` -/

/-- Fold law of `CallWithArgs` on arguments that have a byte view: with a hasher receiver,
positional arguments that are each a byte string or a text string with a UTF-16 encoding,
and a `seed` that is absent or an integer below `2 ^ N`, the call returns the encoding of
the left fold of the hash step over the normalized arguments, started at the seed (zero
when absent), with no Python error set; and a call without a seed equals the same call
with `seed=0`. -/
theorem CallWithArgs_fold (T : HasherT) (args : List PyObj) (views : List (List Nat))
    (kwargs : List (String × PyObj)) (seed : Option Nat)
    (hargs : List.Forall₂ (fun a v => isBytesOrText a ∧ Spec.normalize a = some v) args views)
    (hseed : kwargs.lookup "seed" = seed.map (fun s => PyObj.long (Int.ofNat s)))
    (hrange : ∀ s, seed = some s → s < 2 ^ T.value_t.bits) :
    CallWithArgs T (.hasher :: args) kwargs =
      .ok (convert T.value_t (Spec.fold T (seed.getD 0) views), none) ∧
    CallWithArgs T (.hasher :: args) [] =
      CallWithArgs T (.hasher :: args) [("seed", .long 0)] := by
  constructor
  · cases seed with
    | none =>
      rw [seed_absent T args kwargs (by simpa using hseed), for_each_fold T args views hargs]
      rfl
    | some s =>
      rw [seed_lookup T args kwargs (.long (Int.ofNat s)) (by simpa using hseed),
        extract_long T.value_t s (hrange s rfl), for_each_fold T args views hargs]
      rfl
  · rw [seed_absent T args [] rfl, seed_lookup T args [("seed", .long 0)] (.long 0) rfl]
    have h0 : extract_hash_value T.value_t (.long 0) = (0, none) :=
      extract_long T.value_t 0 (by positivity)
    rw [h0]

/-- The fold law on a concrete call: the sample hasher on `(b"abc", "a")` with `seed=42`. -/
theorem CallWithArgs_fold_witness :
    CallWithArgs sampleHasher [.hasher, .bytes [97, 98, 99], .unicode [97]]
        [("seed", .long 42)] =
      .ok (convert .uint32_t (Spec.fold sampleHasher 42 [[97, 98, 99], [97, 0]]), none) ∧
    CallWithArgs sampleHasher [.hasher, .bytes [97, 98, 99], .unicode [97]] [] =
      CallWithArgs sampleHasher [.hasher, .bytes [97, 98, 99], .unicode [97]]
        [("seed", .long 0)] :=
  CallWithArgs_fold sampleHasher [.bytes [97, 98, 99], .unicode [97]] [[97, 98, 99], [97, 0]]
    [("seed", .long 42)] (some 42)
    (.cons ⟨Or.inl rfl, rfl⟩ (.cons ⟨Or.inr rfl, by decide⟩ .nil))
    (by decide) (fun s hs => by cases hs; decide)

/-- C2: the code on `(self, b"a", t)` where `t` is the text string of the single code
point U+D800, a lone surrogate.  Both positional arguments are a byte string or a text
string, yet for every hasher and every keyword arguments the call returns no integer:
`PyUnicode_AsUTF16String` yields null for `t`, the null is not checked, and the call is
left at `PyBytes_AsStringAndSize` on the null object, after the step on `b"a"` has run. -/
theorem CallWithArgs_lone_surrogate (T : HasherT) (kwargs : List (String × PyObj)) :
    (isBytesOrText (.bytes [97]) ∧ isBytesOrText (.unicode [0xD800])) ∧
    PyUnicode_AsUTF16String (.unicode [0xD800]) = none ∧
    CallWithArgs T [.hasher, .bytes [97], .unicode [0xD800]] kwargs = .error .null_object := by
  have henc : utf16_encode [0xD800] = none := by decide
  refine ⟨⟨Or.inl rfl, Or.inr rfl⟩, by simp [PyUnicode_AsUTF16String, henc], ?_⟩
  apply call_error
  intro value
  simp [for_each, argStep_bytes, argStep_unicode_none T _ [0xD800] henc]

/-- C4, as stated, fails: with the sample hasher, the call with no positional argument and
`seed=5` returns the seed 5, not the encoding of the hash step on the empty view. -/
theorem CallWithArgs_no_args_counterexample :
    CallWithArgs sampleHasher [.hasher] [("seed", .long 5)] = .ok (.long 5, none) ∧
    convert .uint32_t (sampleHasher.call [] 5) = .long 156 ∧
    CallWithArgs sampleHasher [.hasher] [("seed", .long 5)] ≠
      .ok (convert sampleHasher.value_t (sampleHasher.call [] 5), none) := by
  refine ⟨rfl, rfl, fun h => ?_⟩
  have h1 : (PyObj.long 5, (none : Option PyErr)) = (PyObj.long 156, none) := Except.ok.inj h
  exact absurd h1 (by decide)

/-- C4, amended: a call with a receiver and zero positional arguments runs no hash step and
returns the encoding of the resolved seed itself. -/
theorem CallWithArgs_no_args (T : HasherT) (kwargs : List (String × PyObj)) (s : Nat)
    (hs : s < 2 ^ T.value_t.bits)
    (hseed : kwargs.lookup "seed" = some (.long (Int.ofNat s))) :
    CallWithArgs T [.hasher] kwargs = .ok (convert T.value_t s, none) := by
  rw [seed_lookup T [] kwargs _ hseed, extract_long T.value_t s hs]
  rfl

/-- C4, amended, on a concrete call: the sample hasher with `seed=5` returns 5. -/
theorem CallWithArgs_no_args_witness :
    CallWithArgs sampleHasher [.hasher] [("seed", .long 5)] =
      .ok (convert .uint32_t 5, none) :=
  CallWithArgs_no_args sampleHasher [("seed", .long 5)] 5 (by decide) (by decide)

/-- C5: the code on `(self, b"abc", seed="x")`.  The `TypeError` is set, but the call goes
on: the hash step runs on `b"abc"` from the zero value and its encoding is returned as the
result object, with the error still pending. -/
theorem CallWithArgs_bad_seed_continues (T : HasherT) :
    CallWithArgs T [.hasher, .bytes [97, 98, 99]] [("seed", .unicode [120])] =
      .ok (convert T.value_t (T.call [97, 98, 99] 0), some (seedTypeError T.value_t)) := by
  rw [seed_lookup T [.bytes [97, 98, 99]] [("seed", .unicode [120])] (.unicode [120]) rfl]
  have h : extract_hash_value T.value_t (.unicode [120]) = (0, some (seedTypeError T.value_t)) := by
    cases T.value_t <;> rfl
  rw [h]
  simp [for_each, argStep_bytes]

/-- C7: for a text `t` whose code points each take one UTF-16 code unit, the text branch
passes to the hash step exactly the UTF-16 little-endian bytes of `t`, of length
`2 * |t|`, and hashing `t` equals hashing that byte string, whatever the keyword
arguments. -/
theorem text_hashes_as_utf16le (T : HasherT) (t : List Nat) (kwargs : List (String × PyObj))
    (ht : ∀ c ∈ t, singleUnit c) :
    (∀ value, argStep T value (.unicode t) = .ok (T.call (Spec.utf16le t) value)) ∧
    (Spec.utf16le t).length = 2 * t.length ∧
    CallWithArgs T [.hasher, .unicode t] kwargs =
      CallWithArgs T [.hasher, .bytes (Spec.utf16le t)] kwargs := by
  have hstep : ∀ value, argStep T value (.unicode t) = .ok (T.call (Spec.utf16le t) value) := by
    intro value
    rw [argStep_unicode T value t t (utf16_encode_singleUnit t ht), unitsLE_eq_utf16le]
  refine ⟨hstep, utf16le_length t, ?_⟩
  simp only [CallWithArgs, for_each, hstep, argStep_bytes]

/-- C7 on a concrete text: `"aé€"` hashes as the six bytes `61 00 E9 00 AC 20`. -/
theorem text_hashes_as_utf16le_witness :
    (∀ value, argStep sampleHasher value (.unicode [0x61, 0xE9, 0x20AC]) =
      .ok (sampleHasher.call [0x61, 0x00, 0xE9, 0x00, 0xAC, 0x20] value)) ∧
    (Spec.utf16le [0x61, 0xE9, 0x20AC]).length = 2 * 3 ∧
    CallWithArgs sampleHasher [.hasher, .unicode [0x61, 0xE9, 0x20AC]] [("seed", .long 9)] =
      CallWithArgs sampleHasher [.hasher, .bytes [0x61, 0x00, 0xE9, 0x00, 0xAC, 0x20]]
        [("seed", .long 9)] :=
  text_hashes_as_utf16le sampleHasher [0x61, 0xE9, 0x20AC] [("seed", .long 9)]
    (by unfold singleUnit; decide)

/-- C8: for every width and every `v` below `2 ^ N`, `convert` yields the host integer `v`
itself, which lies in `[0, 2 ^ N - 1]`; and the object returned by any call of
`CallWithArgs` that returns is such an integer, hence never negative. -/
theorem convert_unsigned (w : hash_value_t) (v : Nat) (hv : v < 2 ^ w.bits)
    (T : HasherT) (args : List PyObj) (kwargs : List (String × PyObj))
    (obj : PyObj) (err : Option PyErr)
    (hcall : CallWithArgs T args kwargs = .ok (obj, err)) :
    (∃ n : Int, convert w v = .long n ∧ n = (v : Int) ∧ 0 ≤ n ∧ n ≤ 2 ^ w.bits - 1) ∧
    (∃ n : Int, obj = .long n ∧ 0 ≤ n ∧ n ≤ 2 ^ T.value_t.bits - 1) := by
  have key : ∀ (w1 : hash_value_t) (v1 : Nat), v1 < 2 ^ w1.bits →
      ∃ n : Int, convert w1 v1 = .long n ∧ n = (v1 : Int) ∧ 0 ≤ n ∧ n ≤ 2 ^ w1.bits - 1 := by
    intro w1 v1 h1
    refine ⟨(v1 : Int), convert_eq w1 v1 h1, rfl, Int.natCast_nonneg v1, ?_⟩
    have h2 : ((v1 : Nat) : Int) < ((2 ^ w1.bits : Nat) : Int) := by exact_mod_cast h1
    have h3 : ((2 ^ w1.bits : Nat) : Int) = (2 : Int) ^ w1.bits := by push_cast; rfl
    omega
  refine ⟨key w v hv, ?_⟩
  obtain ⟨value, hlt, hobj⟩ := call_ok_value T args kwargs obj err hcall
  obtain ⟨n, hn, _, h0, h1⟩ := key T.value_t value hlt
  exact ⟨n, by rw [hobj, hn], h0, h1⟩

/-- C8 on concrete values: the 128-bit value with only its top bit set encodes to
`2 ^ 127`, and the sample call returns a non-negative integer. -/
theorem convert_unsigned_witness :
    (∃ n : Int, convert .uint128_t (2 ^ 127) = .long n ∧ n = ((2 ^ 127 : Nat) : Int) ∧
      0 ≤ n ∧ n ≤ 2 ^ hash_value_t.uint128_t.bits - 1) ∧
    (∃ n : Int, PyObj.long 156 = .long n ∧ 0 ≤ n ∧ n ≤ 2 ^ sampleHasher.value_t.bits - 1) :=
  convert_unsigned .uint128_t (2 ^ 127) (by decide) sampleHasher [.hasher, .bytes []]
    [("seed", .long 5)] (.long 156) none rfl

/-- C9: for a seed `s` below `2 ^ N` and a first argument `a` that is a byte string or a
text string, the call on `a` alone returns an integer `r` with no error, and the call on
`a` followed by `rest` equals the call on `rest` with `seed=r`. -/
theorem CallWithArgs_chain (T : HasherT) (a : PyObj) (view : List Nat) (rest : List PyObj)
    (s : Nat) (hs : s < 2 ^ T.value_t.bits) (ha : isBytesOrText a)
    (hview : Spec.normalize a = some view) :
    CallWithArgs T [.hasher, a] [("seed", .long (Int.ofNat s))] =
      .ok (convert T.value_t (T.call view s), none) ∧
    CallWithArgs T (.hasher :: a :: rest) [("seed", .long (Int.ofNat s))] =
      CallWithArgs T (.hasher :: rest) [("seed", convert T.value_t (T.call view s))] := by
  have hstep := argStep_normalize T s a view ha hview
  have hrt := extract_convert_roundtrip_aux T.value_t (T.call view s) (call_lt T view s)
  constructor
  · rw [seed_only, extract_long T.value_t s hs]
    simp [for_each, hstep]
  · rw [seed_only, seed_only, extract_long T.value_t s hs, hrt]
    simp [for_each, hstep]

/-- C9 on a concrete call: `(self, b"ab", "c", b"d")` with `seed=3` against
`(self, "c", b"d")` seeded with the result of `(self, b"ab")` with `seed=3`. -/
theorem CallWithArgs_chain_witness :
    CallWithArgs sampleHasher [.hasher, .bytes [97, 98]] [("seed", .long 3)] =
      .ok (convert .uint32_t (sampleHasher.call [97, 98] 3), none) ∧
    CallWithArgs sampleHasher [.hasher, .bytes [97, 98], .unicode [99], .bytes [100]]
        [("seed", .long 3)] =
      CallWithArgs sampleHasher [.hasher, .unicode [99], .bytes [100]]
        [("seed", convert .uint32_t (sampleHasher.call [97, 98] 3))] :=
  CallWithArgs_chain sampleHasher (.bytes [97, 98]) [97, 98] [.unicode [99], .bytes [100]] 3
    (by decide) (Or.inl rfl) rfl

end PyFastHash
